import Mathlib

/-!
Verification of the self-play training orchestrator of GATZero
(`self_play.py`, `networks/tictactoe_gat.py`), as a shallow embedding.

Conventions of the embedding:
* Python floats become rationals (`ℚ`).
* The game, the search policy and the action sampler are opaque
  collaborators, passed in as functions; random sampling
  (`torch.multinomial`) is modelled by a step-indexed oracle.
* The checkpoint directory is an association list from file name to
  saved value; `torch.save` / `torch.load` are modelled as exact
  key-value storage (serialization fidelity of the torch layer is
  assumed).
* The potentially non-terminating episode loop takes a fuel argument
  and returns `none` when the fuel runs out.
-/

namespace GATZero

/-! ### ModelVersionGate (`self_play.py` lines 141-150) -/

/-- Outcome of the arena gating decision. -/
inductive GateDecision where
  | ACCEPT
  | REJECT
deriving DecidableEq

/-- Line 144 of `self_play.py`:
`if pwins + nwins == 0 or float(nwins) / (pwins + nwins) < self.args.updateThreshold`
rejects the candidate; otherwise it is accepted.  `draws` is reported by
the arena but never used in the decision. -/
def gateDecision (pwins nwins draws : ℕ) (updateThreshold : ℚ) : GateDecision :=
  if pwins + nwins = 0 ∨ (nwins : ℚ) / ((pwins : ℚ) + (nwins : ℚ)) < updateThreshold then
    GateDecision.REJECT
  else
    GateDecision.ACCEPT

/-! ### Bounded deques and ReplayHistory (`self_play.py` lines 77, 90, 92-97, 101-106) -/

/-- Model of `collections.deque(xs, maxlen=m)`: keeps only the last `m` elements. -/
def dequeOf {E : Type} (xs : List E) (maxlen : ℕ) : List E :=
  xs.drop (xs.length - maxlen)

/-- Appending to a deque with `maxlen=m` (`iterationTrainExamples += episode`,
line 82): the concatenation then keeps the last `m` elements. -/
def dequeAppend {E : Type} (d : List E) (xs : List E) (maxlen : ℕ) : List E :=
  dequeOf (d ++ xs) maxlen

/-- Lines 92-97 of `self_play.py`: append the iteration batch, and when the
history holds more than `numItersForTrainExamplesHistory` entries, warn and
`pop(0)` the oldest.  The boolean records whether the warning was emitted. -/
def addIteration {B : Type} (hist : List B) (batch : B) (maxIters : ℕ) :
    List B × Bool :=
  let h := hist ++ [batch]
  if maxIters < h.length then (h.drop 1, true) else (h, false)

/-- Folding a sequence of iteration batches into the history, as successive
iterations of `learn` do. -/
def addIterations {B : Type} (maxIters : ℕ) (hist : List B) (bs : List B) :
    List B :=
  bs.foldl (fun h b => (addIteration h b maxIters).1) hist

/-- Lines 103-105 of `self_play.py`: `trainExamples = []` then
`trainExamples.extend(e)` for every retained batch. -/
def flattenHistory {E : Type} (hist : List (List E)) : List E :=
  hist.foldl (fun acc e => acc ++ e) []

/-- The state invariant the replay history maintains in `learn`: at most
`maxIters` retained iterations, each within the per-iteration capacity. -/
def histInvariant {E : Type} (maxIters maxlen : ℕ) (hist : List (List E)) : Prop :=
  hist.length ≤ maxIters ∧ ∀ b ∈ hist, b.length ≤ maxlen

/-! ### DistributedSync (`self_play.py` lines 84-90) -/

/-- A Python sequence value as line 90 distinguishes them: a plain `list`
or a `collections.deque`.  Each worker's `iterationTrainExamples` is a
deque (line 77), and `dist.all_gather_object` delivers it to rank 0 still
as a deque. -/
inductive PySeq (E : Type) where
  | pylist (xs : List E)
  | pydeque (xs : List E)
deriving DecidableEq

/-- Python `list.__add__`: `acc + s` concatenates when `s` is a list and
raises `TypeError` (modelled as `none`) when `s` is a deque — deques do
not support `list + deque`. -/
def pyListAdd {E : Type} (acc : List E) (s : PySeq E) : Option (List E) :=
  match s with
  | PySeq.pylist xs => some (acc ++ xs)
  | PySeq.pydeque _ => none

/-- Python `sum(items, [])`: a left fold of `+` starting from the empty
list, propagating the first `TypeError`. -/
def pySum {E : Type} (items : List (PySeq E)) : Option (List E) :=
  items.foldlM pyListAdd []

/-- Line 90 of `self_play.py` on rank 0:
`deque(sum(all_examples, []), maxlen=self.args.maxlenOfQueue)` — when the
sum succeeds, the result is rebounded by the iteration queue capacity. -/
def gatherExamples {E : Type} (all_examples : List (PySeq E)) (maxlen : ℕ) :
    Option (List E) :=
  (pySum all_examples).map fun xs => dequeOf xs maxlen

/-! ### Checkpoint store (`tictactoe_gat.py` lines 280-302, used by `learn`) -/

/-- Writing a checkpoint file: the newest entry for a name shadows older
ones, exactly as overwriting a file does. -/
def saveCheckpointEntry {P : Type} (store : List (String × P)) (name : String)
    (v : P) : List (String × P) :=
  (name, v) :: store

/-- Reading a checkpoint file: the most recently written value for the name,
`none` when the file does not exist. -/
def loadCheckpointEntry {P : Type} (store : List (String × P)) (name : String) :
    Option P :=
  store.lookup name

/-- Line 156 of `self_play.py`. -/
def getCheckpointFile (iteration : ℕ) : String :=
  "checkpoint_" ++ toString iteration ++ ".pth.tar"

/-! ### The Game collaborator (spec section 6) -/

/-- The fixed Game interface consumed by `SelfPlay`.  Players are `1` and
`-1`; `get_game_ended` returns `0` while the game is ongoing. -/
structure Game (B : Type) where
  get_init_board : B
  get_canonical_form : B → ℤ → B
  get_next_state : B → ℤ → ℕ → B × ℤ
  get_game_ended : B → ℤ → ℤ
  get_symmetries : B → List ℚ → List (B × List ℚ)

/-! ### EpisodeGenerator (`self_play.py` lines 43-69) -/

/-- Line 52 of `self_play.py`: `temp = int(episodeStep < self.args.tempThreshold)`. -/
def tempOf (tempThreshold episodeStep : ℕ) : ℕ :=
  if episodeStep < tempThreshold then 1 else 0

/-- A pending training example, line 61 of `self_play.py`:
`[b, self.curPlayer, p, None]` — the outcome slot is filled only at
episode end, so it is left out of the record. -/
structure Pending (B : Type) where
  board : B
  player : ℤ
  pi : List ℚ

/-- Line 69 of `self_play.py`: the returned list
`[(x[0], x[2], r * ((-1) ** (x[1] != self.curPlayer))) for x in trainExamples]`. -/
def assignOutcomes {B : Type} (trainExamples : List (Pending B)) (r : ℤ)
    (curPlayer : ℤ) : List (B × List ℚ × ℤ) :=
  trainExamples.map fun x =>
    (x.board, x.pi, r * (-1) ^ (if x.player ≠ curPlayer then 1 else 0))

/-- The `while True` loop of `executeEpisode` (lines 49-69), stopped just
before the final outcome assignment: it returns the accumulated pending
examples together with the terminal result `r` and the terminal-time
`curPlayer`.  `policy` is `mcts.get_action_prob` (board and temperature to
distribution); `choose` is the `torch.multinomial` sampling oracle, indexed
by episode step.  `fuel` bounds the number of loop iterations. -/
def episodeLoop {B : Type} (g : Game B) (policy : B → ℕ → List ℚ)
    (choose : ℕ → ℕ) (tempThreshold : ℕ) :
    ℕ → List (Pending B) → B → ℤ → ℕ → Option (List (Pending B) × ℤ × ℤ)
  | 0, _, _, _, _ => none
  | fuel + 1, trainExamples, board, curPlayer, episodeStep =>
    let step := episodeStep + 1
    let canonicalBoard := g.get_canonical_form board curPlayer
    let temp := tempOf tempThreshold step
    let pi := policy canonicalBoard temp
    let sym := g.get_symmetries canonicalBoard pi
    let trainExamples := trainExamples ++ sym.map fun bp => Pending.mk bp.1 curPlayer bp.2
    let action := choose step
    let next := g.get_next_state board curPlayer action
    let r := g.get_game_ended next.1 next.2
    if r ≠ 0 then
      some (trainExamples, r, next.2)
    else
      episodeLoop g policy choose tempThreshold fuel trainExamples next.1 next.2 step

/-- Model of `SelfPlay.executeEpisode` (lines 43-69): run the loop from the initial
board with `curPlayer = 1` and `episodeStep = 0`, then back-fill outcomes. -/
def executeEpisode {B : Type} (g : Game B) (policy : B → ℕ → List ℚ)
    (choose : ℕ → ℕ) (tempThreshold fuel : ℕ) : Option (List (B × List ℚ × ℤ)) :=
  (episodeLoop g policy choose tempThreshold fuel [] g.get_init_board 1 0).map
    fun t => assignOutcomes t.1 t.2.1 t.2.2

/-! ### Training, evaluation and gating in one iteration of `learn`
(`self_play.py` lines 127-150, coordinator rank 0) -/

/-- Predictor-side state visible to `learn`: the deployed net `nnet`, the
incumbent copy `pnet`, and the checkpoint directory. -/
structure IterState (P : Type) where
  nnet : P
  pnet : P
  store : List (String × P)

/-- Lines 127-150 of `self_play.py`: save the pre-training snapshot as
`temp.pth.tar`, reload it into `pnet`, train `nnet`, pit the two and gate.
On REJECT `nnet` is reloaded from `temp.pth.tar`; on ACCEPT it is saved as
`checkpoint_<i>.pth.tar` and `best.pth.tar`.  `trainFn` is the opaque
`nnet.train`; `pwins`, `nwins`, `draws` are the arena results.  A missing
checkpoint file makes `load_checkpoint` raise, modelled as `none`. -/
def trainEvalStep {P : Type} (trainFn : P → P) (updateThreshold : ℚ)
    (pwins nwins draws : ℕ) (i : ℕ) (st : IterState P) : Option (IterState P) :=
  let store := saveCheckpointEntry st.store "temp.pth.tar" st.nnet
  match loadCheckpointEntry store "temp.pth.tar" with
  | none => none
  | some pnet =>
    let nnet := trainFn st.nnet
    match gateDecision pwins nwins draws updateThreshold with
    | GateDecision.REJECT =>
        (loadCheckpointEntry store "temp.pth.tar").map fun m =>
          IterState.mk m pnet store
    | GateDecision.ACCEPT =>
        some (IterState.mk nnet pnet
          (saveCheckpointEntry
            (saveCheckpointEntry store (getCheckpointFile i) nnet)
            "best.pth.tar" nnet))

/-! ### loadTrainExamples (`self_play.py` lines 167-183, rank 0) -/

/-- Model of `SelfPlay.loadTrainExamples`: `fileExists` is `os.path.isfile` on the
examples file, `fileContents` its unpickled history, `userInput` the answer
to `Continue? [y|n]`, and `st` the (history, skipFirstSelfPlay) pair before
the call.  `none` models `sys.exit()`. -/
def loadTrainExamples {B : Type} (fileExists : Bool) (fileContents : List B)
    (userInput : String) (st : List B × Bool) : Option (List B × Bool) :=
  if !fileExists then
    if userInput ≠ "y" then none
    else some st
  else
    some (fileContents, true)

/-! ### NNetWrapper checkpointing (`tictactoe_gat.py` lines 280-302) -/

/-- The four state dictionaries held by `NNetWrapper` that
`save_checkpoint` persists: network, optimizer, scheduler, scaler.  Their
contents are opaque type parameters. -/
structure WrapperState (N O S G : Type) where
  nnet_sd : N
  optimizer_sd : O
  scheduler_sd : S
  scaler_sd : G

/-- Model of `NNetWrapper.save_checkpoint` (lines 280-290): `torch.save` the dict of
the four state dicts at `os.path.join(folder, filename)`. -/
def save_checkpoint {N O S G : Type} (w : WrapperState N O S G)
    (store : List (String × WrapperState N O S G)) (folder filename : String) :
    List (String × WrapperState N O S G) :=
  saveCheckpointEntry store (folder ++ "/" ++ filename)
    (WrapperState.mk w.nnet_sd w.optimizer_sd w.scheduler_sd w.scaler_sd)

/-- Model of `NNetWrapper.load_checkpoint` (lines 292-302): raise (`none`) when the
file is missing, else restore all four state dicts from it. -/
def load_checkpoint {N O S G : Type}
    (store : List (String × WrapperState N O S G)) (folder filename : String) :
    Option (WrapperState N O S G) :=
  (loadCheckpointEntry store (folder ++ "/" ++ filename)).map fun c =>
    WrapperState.mk c.nnet_sd c.optimizer_sd c.scheduler_sd c.scaler_sd

/-- Model of `NNetWrapper.predict` (lines 270-278): a forward pass of the network in
eval mode, a pure function of the network state dict and the board.
`predictFn` is the opaque numeric forward computation. -/
def predict {N O S G B Out : Type} (predictFn : N → B → Out)
    (w : WrapperState N O S G) (board : B) : Out :=
  predictFn w.nnet_sd board

/-! ### A tiny concrete Game instance, used only to evaluate the episode
generator on closed inputs.  The board counts the moves made; the game ends
as a win for whoever moved third. -/

/-- A concrete three-move game: board `b` is the move count, canonical form
is the identity, every move increments the count and flips the player, and
the game ends with result `1` once three moves are made. -/
def cntGame : Game ℕ where
  get_init_board := 0
  get_canonical_form := fun b _ => b
  get_next_state := fun b p _ => (b + 1, -p)
  get_game_ended := fun b _ => if 3 ≤ b then 1 else 0
  get_symmetries := fun b pi => [(b, pi)]

/-- A policy that records the temperature it was handed, so an episode's
examples reveal the temperature schedule. -/
def tempProbe : ℕ → ℕ → List ℚ :=
  fun _ temp => [(temp : ℚ)]

/-- The pending examples accumulated by `executeEpisode` on `cntGame` with
`tempThreshold = 2`: one per ply, each carrying the mover and the
temperature the policy saw. -/
def cntPend : List (Pending ℕ) :=
  [Pending.mk 0 1 [(1 : ℚ)], Pending.mk 1 (-1) [(0 : ℚ)], Pending.mk 2 1 [(0 : ℚ)]]

/-! ## Theorems -/

/-- Helper: the accumulate-by-append fold used at lines 90 and 103-105 of
`self_play.py` concatenates the batches. -/
theorem foldl_append_eq_append_join {E : Type} :
    ∀ (l : List (List E)) (acc : List E),
      l.foldl (fun acc e => acc ++ e) acc = acc ++ l.flatten
  | [], acc => by simp
  | e :: l, acc => by
    simp [List.foldl_cons, foldl_append_eq_append_join l (acc ++ e)]

/-- Helper: a bounded deque never exceeds its capacity. -/
theorem dequeOf_length_le {E : Type} (xs : List E) (maxlen : ℕ) :
    (dequeOf xs maxlen).length ≤ maxlen := by
  simp only [dequeOf, List.length_drop]
  omega

/-- Claim C1: the gate accepts iff the win denominator is nonzero and the
candidate's win rate meets the threshold; at threshold `0.55`,
55/45 wins accepts, 54/46 rejects, and 0/0 with 100 draws rejects.
(The candidate is `nwins`, the incumbent `pwins`.) -/
theorem gateDecision_accept_iff (pwins nwins draws : ℕ) (t : ℚ) :
    (gateDecision pwins nwins draws t = GateDecision.ACCEPT ↔
      pwins + nwins ≠ 0 ∧ t ≤ (nwins : ℚ) / ((nwins : ℚ) + (pwins : ℚ))) ∧
    gateDecision 45 55 0 (55/100) = GateDecision.ACCEPT ∧
    gateDecision 46 54 0 (55/100) = GateDecision.REJECT ∧
    gateDecision 0 0 100 (55/100) = GateDecision.REJECT := by
  refine ⟨?_, by norm_num [gateDecision], by norm_num [gateDecision],
    by norm_num [gateDecision]⟩
  unfold gateDecision
  rw [add_comm ((pwins : ℚ)) ((nwins : ℚ))]
  by_cases h : pwins + nwins = 0 ∨ (nwins : ℚ) / ((nwins : ℚ) + (pwins : ℚ)) < t
  · rw [if_pos h]
    apply iff_of_false
    · exact (by decide : GateDecision.REJECT ≠ GateDecision.ACCEPT)
    · rintro ⟨h1, h2⟩
      rcases h with h | h
      · exact h1 h
      · exact absurd h2 (not_le.mpr h)
  · rw [if_neg h]
    push_neg at h
    exact iff_of_true rfl ⟨h.1, h.2⟩

/-- Helper: as long as the history stays within capacity, adding iteration
batches is plain appending (no eviction). -/
theorem addIterations_no_evict {B : Type} (maxIters : ℕ) :
    ∀ (bs : List B) (hist : List B), hist.length + bs.length ≤ maxIters →
      addIterations maxIters hist bs = hist ++ bs
  | [], hist, _ => by simp [addIterations]
  | b :: bs, hist, h => by
    have h' : hist.length + bs.length + 1 ≤ maxIters := by
      simp only [List.length_cons] at h
      omega
    have hlen : ¬ maxIters < (hist ++ [b]).length := by
      simp only [List.length_append, List.length_singleton]
      omega
    have hstep : (addIteration hist b maxIters).1 = hist ++ [b] := by
      simp only [addIteration, hlen, if_false]
    calc addIterations maxIters hist (b :: bs)
        = addIterations maxIters (hist ++ [b]) bs := by
          simp only [addIterations, List.foldl_cons, hstep]
      _ = (hist ++ [b]) ++ bs := by
          apply addIterations_no_evict maxIters bs
          simp only [List.length_append, List.length_singleton]
          omega
      _ = hist ++ (b :: bs) := by simp

/-- Claim C5: inserting `max` batches into an empty history evicts nothing;
inserting one more evicts exactly the first-inserted batch, keeping the
rest in order, and the overflowing insertion emits the diagnostic
warning. -/
theorem replayHistory_fifo {B : Type} (maxIters : ℕ) (bs : List B) (b : B)
    (h : bs.length = maxIters) :
    addIterations maxIters [] bs = bs ∧
    addIterations maxIters [] (bs ++ [b]) = (bs ++ [b]).drop 1 ∧
    (addIteration bs b maxIters).2 = true := by
  have hfull : addIterations maxIters [] bs = bs := by
    have := addIterations_no_evict maxIters bs [] (by simp [h])
    simpa using this
  have hover : maxIters < (bs ++ [b]).length := by
    simp [h]
  refine ⟨hfull, ?_, ?_⟩
  · rw [addIterations, List.foldl_append]
    show (addIteration (addIterations maxIters [] bs) b maxIters).1 = _
    rw [hfull]
    simp only [addIteration, hover, if_true]
  · simp only [addIteration, hover, if_true]

/-- Witness for C5 at `maxIters = 2` with batches `[10], [20], [30]`
over `B = List ℕ`. -/
theorem replayHistory_fifo_witness :
    ([[10], [20]] : List (List ℕ)).length = 2 ∧
    (addIterations 2 [] [[10], [20]] = [[10], [20]] ∧
     addIterations 2 [] ([[10], [20]] ++ [[30]]) = ([[10], [20]] ++ [[30]]).drop 1 ∧
     (addIteration [[10], [20]] [30] 2).2 = true) :=
  ⟨rfl, replayHistory_fifo 2 [[10], [20]] [30] rfl⟩

/-- Claim C6: under the history invariant (at most `maxIters` retained
batches, each of length at most `maxlen`) the flattened training set has at
most `maxIters * maxlen` examples; the invariant holds of the empty initial
history, is preserved by `addIteration` for every in-capacity batch, and
every per-iteration deque stays within `maxlen`. -/
theorem replayHistory_capacity {E : Type} (maxIters maxlen : ℕ)
    (hist : List (List E)) (batch : List E) (d xs : List E)
    (inv : histInvariant maxIters maxlen hist) (hb : batch.length ≤ maxlen) :
    (flattenHistory hist).length ≤ maxIters * maxlen ∧
    histInvariant maxIters maxlen (addIteration hist batch maxIters).1 ∧
    histInvariant maxIters maxlen ([] : List (List E)) ∧
    (dequeAppend d xs maxlen).length ≤ maxlen := by
  obtain ⟨hlen, hall⟩ := inv
  refine ⟨?_, ?_, ⟨by simp, by simp⟩, dequeOf_length_le _ _⟩
  · have hflat : flattenHistory hist = hist.flatten := by
      simpa using foldl_append_eq_append_join hist []
    rw [hflat, List.length_flatten]
    calc (hist.map List.length).sum
        ≤ (hist.map List.length).length • maxlen := by
          apply List.sum_le_card_nsmul
          intro x hx
          obtain ⟨l, hl, rfl⟩ := List.mem_map.mp hx
          exact hall l hl
      _ = hist.length * maxlen := by simp [smul_eq_mul]
      _ ≤ maxIters * maxlen := Nat.mul_le_mul_right _ hlen
  · simp only [addIteration]
    by_cases hc : maxIters < (hist ++ [batch]).length
    · simp only [hc, if_true]
      constructor
      · simp only [List.length_drop, List.length_append, List.length_singleton]
        omega
      · intro l hl
        have : l ∈ hist ++ [batch] := List.mem_of_mem_drop hl
        rcases List.mem_append.mp this with h' | h'
        · exact hall l h'
        · simp only [List.mem_singleton] at h'
          exact h' ▸ hb
    · simp only [hc, if_false]
      simp only [List.length_append, List.length_singleton] at hc
      constructor
      · simp only [List.length_append, List.length_singleton]
        omega
      · intro l hl
        rcases List.mem_append.mp hl with h' | h'
        · exact hall l h'
        · simp only [List.mem_singleton] at h'
          exact h' ▸ hb

/-- Witness for C6: a concrete two-batch history within capacity. -/
theorem replayHistory_capacity_witness :
    (flattenHistory [[5], [6, 7]] : List ℕ).length ≤ 2 * 2 ∧
    histInvariant 2 2 (addIteration [[5], [6, 7]] [8] 2).1 ∧
    histInvariant 2 2 ([] : List (List ℕ)) ∧
    (dequeAppend [1] [2, 3] 2).length ≤ 2 :=
  replayHistory_capacity 2 2 [[5], [6, 7]] [8] [1] [2, 3]
    ⟨by simp, by intro b hb; fin_cases hb <;> simp⟩ (by simp)

/-- Claim C8: on a requested resume with the examples file missing, the run
continues (history and skip-flag untouched) exactly when the user answers
`y`, and exits otherwise; with the file present, the history is loaded and
the skip-first-self-play flag is set. -/
theorem loadTrainExamples_resume {B : Type} (c : List B) (u : String)
    (st : List B × Bool) :
    (loadTrainExamples false c u st = none ↔ u ≠ "y") ∧
    loadTrainExamples false c "y" st = some st ∧
    loadTrainExamples true c u st = some (c, true) := by
  refine ⟨?_, by simp [loadTrainExamples], by simp [loadTrainExamples]⟩
  by_cases h : u = "y" <;> simp [loadTrainExamples, h]

/-- Helper: when the episode loop returns, the reported result is the
value of `get_game_ended` at some board for the terminal-time current
player, and it is nonzero (the loop keeps running on `0`). -/
theorem episodeLoop_terminal {B : Type} (g : Game B) (policy : B → ℕ → List ℚ)
    (choose : ℕ → ℕ) (tt : ℕ) :
    ∀ (fuel : ℕ) (pend : List (Pending B)) (board : B) (curPlayer : ℤ)
      (step : ℕ) (pend' : List (Pending B)) (r p : ℤ),
      episodeLoop g policy choose tt fuel pend board curPlayer step =
        some (pend', r, p) →
      r ≠ 0 ∧ ∃ b, r = g.get_game_ended b p
  | 0, pend, board, curPlayer, step, pend', r, p => by
    intro h
    simp [episodeLoop] at h
  | fuel + 1, pend, board, curPlayer, step, pend', r, p => by
    intro h
    simp only [episodeLoop] at h
    split at h
    · next hcond =>
      simp only [Option.some.injEq, Prod.mk.injEq] at h
      obtain ⟨-, h2, h3⟩ := h
      subst h2
      subst h3
      exact ⟨hcond, _, rfl⟩
    · exact episodeLoop_terminal g policy choose tt fuel _ _ _ _ _ _ _ h

/-- Claim C2: when the episode loop terminates with result `r` and
terminal-time current player `p`, `executeEpisode` back-fills every pending
example's outcome as `r` when its recorded mover is `p` and as `-r`
otherwise; given the Game contract that `get_game_ended` only returns
`-1`, `0` or `1`, every outcome lies in that set. -/
theorem executeEpisode_backfill {B : Type} (g : Game B)
    (policy : B → ℕ → List ℚ) (choose : ℕ → ℕ) (tt fuel : ℕ)
    (pend : List (Pending B)) (r p : ℤ)
    (hrange : ∀ b q, g.get_game_ended b q = -1 ∨ g.get_game_ended b q = 0 ∨
      g.get_game_ended b q = 1)
    (h : episodeLoop g policy choose tt fuel [] g.get_init_board 1 0 =
      some (pend, r, p)) :
    executeEpisode g policy choose tt fuel =
      some (pend.map fun x => (x.board, x.pi, if x.player = p then r else -r)) ∧
    ∀ e ∈ (pend.map fun x : Pending B =>
        (x.board, x.pi, if x.player = p then r else -r)),
      e.2.2 = -1 ∨ e.2.2 = 0 ∨ e.2.2 = 1 := by
  have hassign : assignOutcomes pend r p =
      pend.map fun x => (x.board, x.pi, if x.player = p then r else -r) := by
    unfold assignOutcomes
    apply List.map_congr_left
    intro x _
    by_cases hx : x.player = p
    · simp [hx]
    · simp [hx, pow_one, mul_neg_one]
  have hr : r = -1 ∨ r = 0 ∨ r = 1 := by
    obtain ⟨-, b0, hb0⟩ :=
      episodeLoop_terminal g policy choose tt fuel [] g.get_init_board 1 0
        pend r p h
    rw [hb0]
    exact hrange b0 p
  constructor
  · rw [executeEpisode, h, Option.map_some', hassign]
  · intro e he
    obtain ⟨x, -, rfl⟩ := List.mem_map.mp he
    by_cases hx : x.player = p
    · simp only [hx, if_true]
      exact hr
    · simp only [hx, if_false]
      rcases hr with h1 | h1 | h1 <;> subst h1 <;> simp

/-- Witness for C2 on the concrete three-move game: the episode terminates
with result `1` for terminal player `-1`, and every outcome follows the
sign-flip law. -/
theorem executeEpisode_backfill_witness :
    executeEpisode cntGame tempProbe (fun _ => 0) 2 10 =
      some (cntPend.map fun x => (x.board, x.pi,
        if x.player = (-1 : ℤ) then (1 : ℤ) else -1)) ∧
    ∀ e ∈ (cntPend.map fun x : Pending ℕ => (x.board, x.pi,
        if x.player = (-1 : ℤ) then (1 : ℤ) else -1)),
      e.2.2 = -1 ∨ e.2.2 = 0 ∨ e.2.2 = 1 :=
  executeEpisode_backfill cntGame tempProbe (fun _ => 0) 2 10 cntPend 1 (-1)
    (by
      intro b q
      by_cases h3 : 3 ≤ b <;> simp [cntGame, h3])
    rfl

/-- Claim C10: under the Game contract (`get_game_ended` in `{-1, 0, 1}`,
`0` meaning ongoing), no returned training example ever has outcome `0`:
the loop returns only on a nonzero result, and outcomes are that result or
its negation. -/
theorem executeEpisode_no_zero_outcome {B : Type} (g : Game B)
    (policy : B → ℕ → List ℚ) (choose : ℕ → ℕ) (tt fuel : ℕ)
    (exs : List (B × List ℚ × ℤ))
    (hrange : ∀ b q, g.get_game_ended b q = -1 ∨ g.get_game_ended b q = 0 ∨
      g.get_game_ended b q = 1)
    (h : executeEpisode g policy choose tt fuel = some exs) :
    ∀ e ∈ exs, e.2.2 = -1 ∨ e.2.2 = 1 := by
  unfold executeEpisode at h
  cases hep : episodeLoop g policy choose tt fuel [] g.get_init_board 1 0 with
  | none => rw [hep] at h; simp at h
  | some t =>
    obtain ⟨pend, r, p⟩ := t
    rw [hep] at h
    simp only [Option.map_some', Option.some.injEq] at h
    obtain ⟨hr0, b0, hb0⟩ :=
      episodeLoop_terminal g policy choose tt fuel [] g.get_init_board 1 0
        pend r p hep
    have hr : r = -1 ∨ r = 1 := by
      rcases hrange b0 p with h1 | h1 | h1 <;> rw [hb0] at hr0 ⊢ <;>
        simp [h1] at hr0 ⊢
    subst h
    intro e he
    unfold assignOutcomes at he
    obtain ⟨x, -, rfl⟩ := List.mem_map.mp he
    by_cases hx : x.player = p <;>
      rcases hr with h1 | h1 <;> subst h1 <;> simp [hx]

/-- Witness for C10 on the concrete three-move game, at the episode's
first produced example. -/
theorem executeEpisode_no_zero_outcome_witness :
    ((0 : ℕ), ([1] : List ℚ), (-1 : ℤ)).2.2 = -1 ∨
    ((0 : ℕ), ([1] : List ℚ), (-1 : ℤ)).2.2 = 1 :=
  executeEpisode_no_zero_outcome cntGame tempProbe (fun _ => 0) 2 10
    (assignOutcomes cntPend 1 (-1))
    (by
      intro b q
      by_cases h3 : 3 ≤ b <;> simp [cntGame, h3])
    rfl
    ((0 : ℕ), ([1] : List ℚ), (-1 : ℤ))
    (by decide)

/-- Claim C3 counterexample: with `tempThreshold = 2`, ply 2 already runs
at temperature 0 — `tempOf 2 2 = 0` — so in a concrete episode (the
three-move game, with the policy echoing its temperature) the example
recorded at ply 2 carries distribution `[0]`, not `[1]`: the claim that
the first `tempThreshold` plies use temperature 1 fails at ply 2. -/
theorem tempSchedule_counterexample :
    tempOf 2 2 = 0 ∧
    executeEpisode cntGame tempProbe (fun _ => 0) 2 10 =
      some [((0 : ℕ), ([1] : List ℚ), (-1 : ℤ)), (1, [0], 1), (2, [0], -1)] :=
  ⟨rfl, rfl⟩

/-- Claim C3 (amended): the temperature passed to the search policy is 1
for every ply strictly before `tempThreshold` (plies 1 through
`tempThreshold - 1`) and 0 from ply `tempThreshold` on. -/
theorem tempOf_schedule (tempThreshold s : ℕ) :
    (s < tempThreshold → tempOf tempThreshold s = 1) ∧
    (tempThreshold ≤ s → tempOf tempThreshold s = 0) := by
  refine ⟨fun h => ?_, fun h => ?_⟩
  · simp [tempOf, h]
  · simp [tempOf, Nat.not_lt.mpr h]

/-- Witness for the amended C3 at `tempThreshold = 5`. -/
theorem tempOf_schedule_witness : tempOf 5 1 = 1 ∧ tempOf 5 5 = 0 :=
  ⟨(tempOf_schedule 5 1).1 (by decide), (tempOf_schedule 5 5).2 (by decide)⟩

/-- Claim C4 (code bug): in a distributed run every worker's
`iterationTrainExamples` reaches rank 0 as a `collections.deque`, so
`sum(all_examples, [])` at line 90 evaluates `[] + deque(...)` and raises
`TypeError` on its very first summand: the coordinator never holds a
gathered set of `W * k` examples, for any worker count and any capacity.
The second conjunct evaluates the modelled code at the concrete failing
input W = 2, k = 3, `maxlenOfQueue = 200000`. -/
theorem gather_typeerror {E : Type} (d0 : List E) (ds : List (List E))
    (maxlen : ℕ) :
    gatherExamples ((d0 :: ds).map PySeq.pydeque) maxlen = none ∧
    gatherExamples [PySeq.pydeque ([0, 1, 2] : List ℕ),
      PySeq.pydeque [3, 4, 5]] 200000 = none := by
  constructor
  · simp [gatherExamples, pySum, pyListAdd, List.foldlM]
  · rfl

/-- Claim C7: in the training-evaluation step, a REJECT decision reloads
the deployed predictor from the pre-training `temp.pth.tar` snapshot, so
training is discarded; an ACCEPT decision keeps the trained predictor and
records it under both `best.pth.tar` and `checkpoint_<iter>.pth.tar`. -/
theorem trainEvalStep_gating {P : Type} (trainFn : P → P) (t t' : ℚ)
    (pw nw dr pw' nw' dr' i : ℕ) (st : IterState P)
    (hrej : gateDecision pw nw dr t = GateDecision.REJECT)
    (hacc : gateDecision pw' nw' dr' t' = GateDecision.ACCEPT) :
    (∃ st1, trainEvalStep trainFn t pw nw dr i st = some st1 ∧
      st1.nnet = st.nnet) ∧
    (∃ st2, trainEvalStep trainFn t' pw' nw' dr' i st = some st2 ∧
      st2.nnet = trainFn st.nnet ∧
      loadCheckpointEntry st2.store "best.pth.tar" = some (trainFn st.nnet) ∧
      ∃ rest, st2.store = ("best.pth.tar", trainFn st.nnet) ::
        (getCheckpointFile i, trainFn st.nnet) :: rest) := by
  have hload : loadCheckpointEntry
      (saveCheckpointEntry st.store "temp.pth.tar" st.nnet) "temp.pth.tar" =
      some st.nnet := by
    simp [loadCheckpointEntry, saveCheckpointEntry, List.lookup]
  constructor
  · refine ⟨IterState.mk st.nnet st.nnet
      (saveCheckpointEntry st.store "temp.pth.tar" st.nnet), ?_, rfl⟩
    simp only [trainEvalStep, hload, hrej, Option.map_some']
  · refine ⟨IterState.mk (trainFn st.nnet) st.nnet
      (saveCheckpointEntry
        (saveCheckpointEntry
          (saveCheckpointEntry st.store "temp.pth.tar" st.nnet)
          (getCheckpointFile i) (trainFn st.nnet))
        "best.pth.tar" (trainFn st.nnet)), ?_, rfl, ?_, ?_⟩
    · simp only [trainEvalStep, hload, hacc]
    · simp [loadCheckpointEntry, saveCheckpointEntry, List.lookup]
    · exact ⟨("temp.pth.tar", st.nnet) :: st.store, rfl⟩

/-- Witness for C7 over `P = ℕ` with `trainFn = Nat.succ`: a 0-0 arena
outcome rejects and a 55-45 outcome at threshold 0.55 accepts. -/
theorem trainEvalStep_gating_witness :
    (∃ st1, trainEvalStep Nat.succ (55/100) 0 0 100 3 (IterState.mk 7 7 []) =
      some st1 ∧ st1.nnet = (IterState.mk 7 7 ([] : List (String × ℕ))).nnet) ∧
    (∃ st2, trainEvalStep Nat.succ (55/100) 45 55 0 3 (IterState.mk 7 7 []) =
      some st2 ∧
      st2.nnet = Nat.succ (IterState.mk 7 7 ([] : List (String × ℕ))).nnet ∧
      loadCheckpointEntry st2.store "best.pth.tar" =
        some (Nat.succ (IterState.mk 7 7 ([] : List (String × ℕ))).nnet) ∧
      ∃ rest, st2.store = ("best.pth.tar",
          Nat.succ (IterState.mk 7 7 ([] : List (String × ℕ))).nnet) ::
        (getCheckpointFile 3,
          Nat.succ (IterState.mk 7 7 ([] : List (String × ℕ))).nnet) :: rest) :=
  trainEvalStep_gating Nat.succ (55/100) (55/100) 0 0 100 45 55 0 3
    (IterState.mk 7 7 []) rfl (by norm_num [gateDecision])

/-- Claim C9: an immediate load after a save restores all four persisted
state dictionaries exactly, so every subsequent `predict` output matches
the pre-save one. -/
theorem checkpoint_roundtrip {N O S G B Out : Type} (predictFn : N → B → Out)
    (w : WrapperState N O S G) (store : List (String × WrapperState N O S G))
    (folder filename : String) (b : B) :
    ∃ w', load_checkpoint (save_checkpoint w store folder filename)
        folder filename = some w' ∧
      w' = w ∧ predict predictFn w' b = predict predictFn w b := by
  refine ⟨w, ?_, rfl, rfl⟩
  simp [load_checkpoint, save_checkpoint, saveCheckpointEntry,
    loadCheckpointEntry, List.lookup]

end GATZero
